import Mathlib

/-!
# QuickCafe recommendation pipeline — verification development

Shallow embedding of the scoring, analysis and caching services of the
QuickCafe repository:

* `src/lib/services/recommendations.ts` — `RecommendationService`
  (weights, per-factor scores, `rankCafes`);
* the second `RecommendationService` variant embedded in
  `src/lib/services/analysis.ts` (`calculateScore` with
  `COMPLEMENTARY_VIBES`);
* `src/lib/services/analysis.ts` — `AnalysisService`
  (`isValidAnalysis`, `saveAnalysisToDatabase`, the retry loop of
  `analyzeReviews`);
* `src/lib/services/cache.ts` — `CacheService`
  (`getLocationCache`, `invalidateLocationCache`, `hasRecentAnalysis`);
* `supabase/migrations/002_db_functions.sql` — `update_cafe_analysis`.

Numbers are modelled as rationals (`ℚ`); timestamps in milliseconds as
integers (`ℤ`).  JavaScript objects used as score maps are modelled as
association lists with unique keys; `obj[key] || 0` becomes a lookup with
default `0` (a stored value `0` is falsy in JS and also yields `0`, so the
two semantics agree on the defaulted read).
-/

namespace QuickCafe

/-- A JSON value as inspected by the analysis validator: either a number or
anything else (string, array, object, null, boolean).  `typeof v === "number"`
distinguishes exactly these two cases. -/
inductive JsVal where
  | num (q : ℚ)
  | other
deriving DecidableEq, Repr

/-- First-match association-list lookup, modelling JS property access on an
object literal (JS object keys are unique, so first match = only match). -/
def assoc {α : Type} : List (String × α) → String → Option α
  | [], _ => none
  | p :: ps, k => if p.1 = k then some p.2 else assoc ps k

/-- Models `scores[key] || 0`: property read with JS falsy default `0`. -/
def lookupScore (m : List (String × ℚ)) (k : String) : ℚ :=
  (assoc m k).getD 0

/-- A recommendation request (`CafeRequest`): mood, optional price range,
required amenities. -/
structure CafeRequest where
  mood : String
  priceRange : Option String
  requirements : List String
deriving DecidableEq, Repr

/-- A candidate cafe as consumed by the scorers (`ScoredCafe` before the
`_score` field is filled in): distance in meters, optional price level
(`$`, `$$` or `$$$`), and the aggregated confidence maps. -/
structure ScoredCafe where
  id : String
  distance : ℚ
  price_level : Option String
  vibe_scores : List (String × ℚ)
  amenity_scores : List (String × ℚ)
deriving DecidableEq, Repr

/-- Models `s.toLowerCase()`: character-wise lowercasing (extensionally the library function
`String.toLower`, spelled out so that it evaluates by kernel reduction). -/
def toLowerCaseJs (s : String) : String := String.mk (s.data.map Char.toLower)

/-- The weight record shape (`ScoreWeights`). -/
structure ScoreWeights where
  vibe : ℚ
  amenity : ℚ
  distance : ℚ
  price : ℚ
deriving DecidableEq, Repr

namespace Rec

/-! The `RecommendationService` of `src/lib/services/recommendations.ts`. -/

/-- Models `WEIGHTS = { vibe: 0.4, amenity: 0.3, distance: 0.2, price: 0.1 }`. -/
def WEIGHTS : ScoreWeights := ⟨2/5, 3/10, 1/5, 1/10⟩

/-- Models `MAX_PREFERRED_DISTANCE = 2000` (2 km). -/
def MAX_PREFERRED_DISTANCE : ℚ := 2000

/-- Models `VIBE_MAPPINGS`: mood → desired vibe categories; unknown moods map to
no desired vibes (JS: `VIBE_MAPPINGS[mood] || []`). -/
def VIBE_MAPPINGS (mood : String) : List String :=
  if mood = "relaxed" then ["cozy", "quiet"]
  else if mood = "productive" then ["quiet", "modern"]
  else if mood = "social" then ["lively", "artistic"]
  else if mood = "inspiring" then ["artistic", "modern"]
  else if mood = "traditional" then ["traditional", "cozy"]
  else if mood = "trendy" then ["modern", "industrial"]
  else []

/-- Models `calculateVibeScore`: mean of the desired-vibe confidences
(`vibeScores[vibe] || 0`), or `0.5` when the mood maps to no vibes. -/
def calculateVibeScore (vibeScores : List (String × ℚ)) (mood : String) : ℚ :=
  let desiredVibes := VIBE_MAPPINGS (toLowerCaseJs mood)
  if desiredVibes.length = 0 then 1/2
  else (desiredVibes.map (lookupScore vibeScores)).sum / desiredVibes.length

/-- Models `calculateAmenityScore`: `1` when nothing is required, else the mean of
`amenityScores[req] || 0` over the requirements. -/
def calculateAmenityScore (amenityScores : List (String × ℚ))
    (requirements : List String) : ℚ :=
  if requirements.length = 0 then 1
  else (requirements.map (lookupScore amenityScores)).sum / requirements.length

/-- Models `calculateDistanceScore`: `max(0, 1 - d / MAX_PREFERRED_DISTANCE)`. -/
def calculateDistanceScore (distanceMeters : ℚ) : ℚ :=
  max 0 (1 - distanceMeters / MAX_PREFERRED_DISTANCE)

/-- Models `calculatePriceScore`: `0.5` when either price is missing, else `1`,
`0.5`, `0` for tier distance `0`, `1`, `≥ 2` (tiers compared by the length
of the dollar string). -/
def calculatePriceScore (cafePrice : Option String) (targetPrice : Option String) : ℚ :=
  match cafePrice, targetPrice with
  | some cp, some tp =>
      let diff := ((cp.length : ℤ) - (tp.length : ℤ)).natAbs
      if diff = 0 then 1 else if diff = 1 then 1/2 else 0
  | _, _ => 1/2

/-- Models `calculateTotalScore`: the weighted sum of the four factor scores. -/
def calculateTotalScore (cafe : ScoredCafe) (request : CafeRequest) : ℚ :=
  calculateVibeScore cafe.vibe_scores request.mood * WEIGHTS.vibe +
  calculateAmenityScore cafe.amenity_scores request.requirements * WEIGHTS.amenity +
  calculateDistanceScore cafe.distance * WEIGHTS.distance +
  calculatePriceScore cafe.price_level request.priceRange * WEIGHTS.price

end Rec

/-- A cafe carrying its computed `_score`. -/
structure RankedCafe where
  cafe : ScoredCafe
  score : ℚ
deriving DecidableEq, Repr

/-- Stable insertion of `c` (an earlier input element) into an
already-sorted-descending list of later elements: `c` skips exactly the
elements with strictly larger score, so equal scores keep input order.
This realises the unique stable order that `Array.prototype.sort` (stable
per ES2019) produces for the comparator
`(a, b) => (b._score ?? 0) - (a._score ?? 0)`. -/
def insertDesc (c : RankedCafe) : List RankedCafe → List RankedCafe
  | [] => [c]
  | x :: xs => if c.score < x.score then x :: insertDesc c xs else c :: x :: xs

/-- Stable sort by `_score` descending (see `insertDesc`). -/
def sortByScoreDesc : List RankedCafe → List RankedCafe
  | [] => []
  | x :: xs => insertDesc x (sortByScoreDesc xs)

namespace Rec

/-- Models `rankCafes`: attach `_score = calculateTotalScore`, sort by score
descending (stable), keep the first 5. -/
def rankCafes (cafes : List ScoredCafe) (request : CafeRequest) : List RankedCafe :=
  (sortByScoreDesc (cafes.map (fun c => ⟨c, calculateTotalScore c request⟩))).take 5

end Rec

namespace RecV2

/-! The second `RecommendationService` variant, embedded in
`src/lib/services/analysis.ts` (`calculateScore` and friends). -/

/-- Models `WEIGHTS = { vibe: 0.35, amenity: 0.25, distance: 0.25, price: 0.15 }`. -/
def WEIGHTS : ScoreWeights := ⟨7/20, 1/4, 1/4, 3/20⟩

/-- Models `MAX_PREFERRED_DISTANCE = 5000` (5 km). -/
def MAX_PREFERRED_DISTANCE : ℚ := 5000

/-- Models `COMPLEMENTARY_VIBES`: target mood → complementary vibe categories;
unknown moods map to `[]` (JS: `COMPLEMENTARY_VIBES[mood] || []`). -/
def COMPLEMENTARY_VIBES (mood : String) : List String :=
  if mood = "cozy" then ["quiet", "traditional"]
  else if mood = "modern" then ["artistic", "industrial", "lively"]
  else if mood = "quiet" then ["cozy", "traditional"]
  else if mood = "lively" then ["modern", "artistic"]
  else if mood = "artistic" then ["modern", "industrial", "lively"]
  else if mood = "traditional" then ["cozy", "quiet"]
  else if mood = "industrial" then ["modern", "artistic"]
  else []

/-- The vibe component of `calculateScore`:
direct confidence when strictly positive, else the complementary scores
summed, scaled by `0.8` and divided by their count when that quantity is
strictly positive, else the base score `0.3`. -/
def totalVibeScore (targetMood : String) (vibeScores : List (String × ℚ)) : ℚ :=
  let directVibeScore := lookupScore vibeScores targetMood
  let complementaryScores := (COMPLEMENTARY_VIBES targetMood).map (lookupScore vibeScores)
  let complementaryScore :=
    if 0 < complementaryScores.length then
      complementaryScores.sum * (4/5) / complementaryScores.length
    else 0
  if 0 < directVibeScore then directVibeScore
  else if 0 < complementaryScore then complementaryScore
  else 3/10

/-- The amenity component of `calculateScore`:
`amenityMatchScores.reduce(..) / length || 0.4` when requirements exist
(the `|| 0.4` replaces a zero mean wholesale), else `1`. -/
def amenityScore (amenityScores : List (String × ℚ)) (requirements : List String) : ℚ :=
  let amenityMatchScores := requirements.map (lookupScore amenityScores)
  if 0 < amenityMatchScores.length then
    let mean := amenityMatchScores.sum / amenityMatchScores.length
    if mean = 0 then 2/5 else mean
  else 1

end RecV2

/-! ## `AnalysisService` (src/lib/services/analysis.ts) -/

/-- The parsed body of a scoring response that has both a `vibe_scores` and
an `amenity_scores` member.  A response whose JSON is unparsable, is not an
object, or lacks one of the two members is represented as `none` at the use
sites (`Option Analysis`). -/
structure Analysis where
  vibe_scores : List (String × JsVal)
  amenity_scores : List (String × JsVal)
deriving DecidableEq, Repr

/-- Models `requiredVibeCategories` from `isValidAnalysis`. -/
def requiredVibeCategories : List String :=
  ["cozy", "modern", "quiet", "lively", "artistic", "traditional", "industrial"]

/-- Models `requiredAmenities` from `isValidAnalysis`. -/
def requiredAmenities : List String :=
  ["wifi", "outdoor_seating", "power_outlets", "pet_friendly", "parking",
   "workspace_friendly", "food_menu"]

/-- Models `typeof score === "number" && score >= 0 && score <= 1`. -/
def validNum : JsVal → Bool
  | .num q => decide (0 ≤ q) && decide (q ≤ 1)
  | .other => false

/-- Models `AnalysisService.isValidAnalysis`: the payload is a well-formed object
with both score maps, all required categories present, and every value (of
either map) a number in `[0, 1]`. -/
def isValidAnalysis : Option Analysis → Bool
  | none => false
  | some a =>
      requiredVibeCategories.all (fun cat => (assoc a.vibe_scores cat).isSome) &&
      requiredAmenities.all (fun am => (assoc a.amenity_scores am).isSome) &&
      a.vibe_scores.all (fun p => validNum p.2) &&
      a.amenity_scores.all (fun p => validNum p.2)

/-- JS `score > threshold` on an untyped score value (on the call path the
scores have been validated to be numbers; a non-number compares false
here). -/
def jsGt (v : JsVal) (t : ℚ) : Bool :=
  match v with
  | .num q => decide (t < q)
  | .other => false

/-- Models `highConfidenceVibes`: the vibe entries with score strictly above `0.4`. -/
def highConfidenceVibes (a : Analysis) : List (String × JsVal) :=
  a.vibe_scores.filter (fun p => jsGt p.2 (2/5))

/-- Models `highConfidenceAmenities`: the amenity entries with score strictly above
`0.5`. -/
def highConfidenceAmenities (a : Analysis) : List (String × JsVal) :=
  a.amenity_scores.filter (fun p => jsGt p.2 (1/2))

/-- A row of the `cafe_vibes` table as written by
`saveAnalysisToDatabase` (one row per cafe holding parallel arrays). -/
structure VibeRow where
  cafe_id : String
  vibe_categories : List String
  confidence_scores : List JsVal
  last_analyzed : ℤ
deriving DecidableEq, Repr

/-- A row of the `cafe_amenities` table as written by
`saveAnalysisToDatabase`. -/
structure AmenityRow where
  cafe_id : String
  amenities : List String
  confidence_scores : List JsVal
  last_analyzed : ℤ
deriving DecidableEq, Repr

/-- The two analysis tables as seen by `saveAnalysisToDatabase` and
`hasRecentAnalysis`: at most one row per `cafe_id` in each. -/
structure DbState where
  cafe_vibes : List VibeRow
  cafe_amenities : List AmenityRow
deriving DecidableEq, Repr

/-- Supabase `upsert` keyed on `cafe_id`: replace the existing row for the
cafe wholesale, or append a new one. -/
def upsertVibe (rows : List VibeRow) (r : VibeRow) : List VibeRow :=
  if rows.any (fun x => x.cafe_id == r.cafe_id)
  then rows.map (fun x => if x.cafe_id = r.cafe_id then r else x)
  else rows ++ [r]

/-- Supabase `upsert` keyed on `cafe_id` for `cafe_amenities`. -/
def upsertAmenity (rows : List AmenityRow) (r : AmenityRow) : List AmenityRow :=
  if rows.any (fun x => x.cafe_id == r.cafe_id)
  then rows.map (fun x => if x.cafe_id = r.cafe_id then r else x)
  else rows ++ [r]

/-- Models `AnalysisService.saveAnalysisToDatabase`.  The vibe upsert and the
amenity upsert are two independent statements; `vibeOk` / `amenityOk`
inject their success or failure, and `t1` / `t2` are the two separate
`new Date().toISOString()` readings taken for the two rows.  The result is
`(success, resulting state)`: a thrown upsert error aborts the rest of the
function but keeps the writes already made. -/
def saveAnalysisToDatabase (vibeOk amenityOk : Bool) (t1 t2 : ℤ)
    (cafeId : String) (a : Analysis) (s : DbState) : Bool × DbState :=
  let hv := highConfidenceVibes a
  let stepVibes : Option DbState :=
    if 0 < hv.length then
      if vibeOk then
        some { s with
               cafe_vibes := upsertVibe s.cafe_vibes ⟨cafeId, hv.map Prod.fst, hv.map Prod.snd, t1⟩ }
      else none
    else some s
  match stepVibes with
  | none => (false, s)
  | some s1 =>
      let ha := highConfidenceAmenities a
      if 0 < ha.length then
        if amenityOk then
          (true, { s1 with
                   cafe_amenities := upsertAmenity s1.cafe_amenities ⟨cafeId, ha.map Prod.fst, ha.map Prod.snd, t2⟩ })
        else (false, s1)
      else (true, s1)

/-- Models `24 * 60 * 60 * 1000` milliseconds. -/
def ONE_DAY : ℤ := 24 * 60 * 60 * 1000

/-- Models `7 * ONE_DAY` milliseconds. -/
def ONE_WEEK : ℤ := 7 * ONE_DAY

/-- Models `CacheService.ANALYSIS_CACHE_DURATION = ONE_WEEK`. -/
def ANALYSIS_CACHE_DURATION : ℤ := ONE_WEEK

/-- Models `CacheService.hasRecentAnalysis`: `.single()` on each table errors when
no row exists (→ `false`); otherwise both `last_analyzed` ages must be
within the seven-day TTL. -/
def hasRecentAnalysis (now : ℤ) (s : DbState) (cafeId : String) : Bool :=
  match s.cafe_vibes.find? (fun r => r.cafe_id == cafeId),
        s.cafe_amenities.find? (fun r => r.cafe_id == cafeId) with
  | some v, some am =>
      decide (now - v.last_analyzed ≤ ANALYSIS_CACHE_DURATION) &&
      decide (now - am.last_analyzed ≤ ANALYSIS_CACHE_DURATION)
  | _, _ => false

/-! ### The retry loop of `analyzeReviews` -/

/-- One scoring-provider call, as observed by the retry loop:
* `rateLimited` — HTTP 429;
* `httpError` — any other non-ok status (throws, caught by the outer catch);
* `okMissingContent` — ok status but no `choices[0].message.content`
  (throws, caught by the outer catch);
* `okContent parsed` — ok status with a content string; `parsed = none`
  when `JSON.parse` or the pre-validation fails (caught by the inner
  catch), otherwise the parsed object. -/
inductive ApiResult where
  | rateLimited
  | httpError (status : ℕ)
  | okMissingContent
  | okContent (parsed : Option Analysis)
deriving DecidableEq, Repr

/-- A review (`text` optional, as in `review.text?.length || 0`). -/
structure Review where
  text : Option String
deriving DecidableEq, Repr

/-- The slice of a `Cafe` consumed by `analyzeReviews`. -/
structure Cafe where
  id : String
  name : String
  reviews : List Review
deriving DecidableEq, Repr

/-- Models `cafe.reviews.reduce((acc, r) => acc + (r.text?.length || 0), 0)`. -/
def totalReviewText (c : Cafe) : ℕ :=
  (c.reviews.map (fun r => (r.text.map String.length).getD 0)).sum

/-- Models `AnalysisService.RETRY_ATTEMPTS = 3`. -/
def RETRY_ATTEMPTS : ℕ := 3

/-- Models `AnalysisService.RETRY_DELAY = 1000` ms. -/
def RETRY_DELAY : ℕ := 1000

/-- What one call to `analyzeReviews` did: how many fetch attempts it made,
the sleeps (ms) between them, the database state it left behind, whether it
stored the analysis in the in-memory cache, and its return value
(`none` = the cafe is skipped). -/
structure AnalyzeOutcome where
  attempts : ℕ
  delays : List ℕ
  db : DbState
  memCached : Bool
  result : Option Analysis
deriving DecidableEq, Repr

/-- The `for (attempt = 1; attempt <= RETRY_ATTEMPTS; attempt++)` loop of
`analyzeReviews`.  `provider n` is the response of the `n`-th fetch;
`fuel` = remaining iterations (started at `RETRY_ATTEMPTS`, so the
`fuel = 0` base case is unreachable).  Branches:
* 429 with `attempt < RETRY_ATTEMPTS`: sleep `RETRY_DELAY * attempt`,
  continue; 429 on the last attempt: throw, outer catch returns `null`;
* other non-ok status or missing content: throw; the outer catch returns
  `null` on the last attempt, else sleeps `RETRY_DELAY * attempt` and
  continues;
* unparsable content: inner catch returns `null`;
* parsed content: invalid → inner catch returns `null`; valid → save to
  the database (a save failure is caught by the inner catch and returns
  `null`, keeping the partial writes), cache in memory, return it. -/
def runAttempts (provider : ℕ → ApiResult) (vibeOk amenityOk : Bool) (t1 t2 : ℤ)
    (cafeId : String) (s : DbState) : ℕ → ℕ → AnalyzeOutcome
  | _, 0 => ⟨0, [], s, false, none⟩
  | attempt, fuel + 1 =>
    match provider attempt with
    | .rateLimited =>
        if attempt < RETRY_ATTEMPTS then
          let o := runAttempts provider vibeOk amenityOk t1 t2 cafeId s (attempt + 1) fuel
          ⟨o.attempts + 1, RETRY_DELAY * attempt :: o.delays, o.db, o.memCached, o.result⟩
        else ⟨1, [], s, false, none⟩
    | .httpError _ =>
        if attempt = RETRY_ATTEMPTS then ⟨1, [], s, false, none⟩
        else
          let o := runAttempts provider vibeOk amenityOk t1 t2 cafeId s (attempt + 1) fuel
          ⟨o.attempts + 1, RETRY_DELAY * attempt :: o.delays, o.db, o.memCached, o.result⟩
    | .okMissingContent =>
        if attempt = RETRY_ATTEMPTS then ⟨1, [], s, false, none⟩
        else
          let o := runAttempts provider vibeOk amenityOk t1 t2 cafeId s (attempt + 1) fuel
          ⟨o.attempts + 1, RETRY_DELAY * attempt :: o.delays, o.db, o.memCached, o.result⟩
    | .okContent none => ⟨1, [], s, false, none⟩
    | .okContent (some a) =>
        if isValidAnalysis (some a) then
          match saveAnalysisToDatabase vibeOk amenityOk t1 t2 cafeId a s with
          | (true, sNew) => ⟨1, [], sNew, true, some a⟩
          | (false, sNew) => ⟨1, [], sNew, false, none⟩
        else ⟨1, [], s, false, none⟩

/-- Models `AnalysisService.analyzeReviews` (with the in-memory cache lookup for
this cafe passed in as `cached`): return `null` without any fetch when the
cafe has no reviews, when a cached analysis exists it is returned as is,
and when the total review text is under 50 characters; otherwise run the
retry loop. -/
def analyzeReviews (cached : Option Analysis) (provider : ℕ → ApiResult)
    (vibeOk amenityOk : Bool) (t1 t2 : ℤ) (cafe : Cafe) (s : DbState) : AnalyzeOutcome :=
  if cafe.reviews.length = 0 then ⟨0, [], s, false, none⟩
  else
    match cached with
    | some a => ⟨0, [], s, false, some a⟩
    | none =>
        if totalReviewText cafe < 50 then ⟨0, [], s, false, none⟩
        else runAttempts provider vibeOk amenityOk t1 t2 cafe.id s 1 RETRY_ATTEMPTS

/-! ## `CacheService` location cache (src/lib/services/cache.ts) -/

/-- A row of the `location_cache` table (`search_location` is the primary
key). -/
structure LocationCacheRow where
  search_location : String
  cafe_ids : List String
  last_updated : ℤ
deriving DecidableEq, Repr

/-- Models `CacheService.LOCATION_CACHE_DURATION = ONE_DAY`. -/
def LOCATION_CACHE_DURATION : ℤ := ONE_DAY

/-- The cache key `` `${searchLocation}:${priceRange || "any"}:${radius}` ``. -/
def locationCacheKey (searchLocation : String) (priceRange : Option String)
    (radius : ℕ) : String :=
  searchLocation ++ ":" ++ priceRange.getD "any" ++ ":" ++ toString radius

/-- Models `CacheService.invalidateLocationCache`: delete the row(s) with the given
key. -/
def invalidateLocationCache (rows : List LocationCacheRow) (key : String) :
    List LocationCacheRow :=
  rows.filter (fun r => !(r.search_location == key))

/-- Models `CacheService.getLocationCache` at time `now`: look the key up
(`.single()`; the key is the primary key, so at most one row matches); a
missing row reads as `null`; a row older than the 24-hour TTL is deleted
and reads as `null`; otherwise the stored cafe ids are returned.  Returns
(read result, resulting table). -/
def getLocationCache (now : ℤ) (rows : List LocationCacheRow)
    (searchLocation : String) (priceRange : Option String) (radius : ℕ) :
    Option (List String) × List LocationCacheRow :=
  let cacheKey := locationCacheKey searchLocation priceRange radius
  match rows.find? (fun r => r.search_location == cacheKey) with
  | none => (none, rows)
  | some r =>
      if LOCATION_CACHE_DURATION < now - r.last_updated then
        (none, invalidateLocationCache rows cacheKey)
      else (some r.cafe_ids, rows)

/-! ## `update_cafe_analysis` (supabase/migrations/002_db_functions.sql) -/

/-- A per-category row of `cafe_vibes` in the schema targeted by the SQL
function. -/
structure VibeScoreRow where
  cafe_id : String
  vibe_category : String
  confidence_score : ℚ
  last_analyzed : ℤ
deriving DecidableEq, Repr

/-- A per-category row of `cafe_amenities` in the schema targeted by the
SQL function. -/
structure AmenityScoreRow where
  cafe_id : String
  amenity : String
  confidence_score : ℚ
  last_analyzed : ℤ
deriving DecidableEq, Repr

/-- The two per-category analysis tables. -/
structure SqlState where
  cafe_vibes : List VibeScoreRow
  cafe_amenities : List AmenityScoreRow
deriving DecidableEq, Repr

/-- The SQL function `update_cafe_analysis(p_cafe_id, p_timestamp, p_vibes,
p_amenities)`: delete every existing row of both tables for the cafe, then
insert the new rows, all stamped with the single `p_timestamp`.  A plpgsql
function body runs atomically inside the calling statement — an error rolls
the whole call back — so its effect is modelled as one total state
transform. -/
def update_cafe_analysis (p_cafe_id : String) (p_timestamp : ℤ)
    (p_vibes : List (String × ℚ)) (p_amenities : List (String × ℚ))
    (s : SqlState) : SqlState :=
  { cafe_vibes :=
      s.cafe_vibes.filter (fun r => !(r.cafe_id == p_cafe_id)) ++
      p_vibes.map (fun p => ⟨p_cafe_id, p.1, p.2, p_timestamp⟩),
    cafe_amenities :=
      s.cafe_amenities.filter (fun r => !(r.cafe_id == p_cafe_id)) ++
      p_amenities.map (fun p => ⟨p_cafe_id, p.1, p.2, p_timestamp⟩) }

/-! ## Spec-side definitions used for refinement statements -/

/-- Amended specification of the `calculateScore` vibe component, written
in the vocabulary of the spec: the direct confidence when strictly positive,
else the *mean* of the complementary-vibe confidences (missing ones reading
as `0`) scaled by `0.8` when that is strictly positive, else the neutral
floor `0.3`. -/
def vibeScoreSpecAmended (targetMood : String) (vibeScores : List (String × ℚ)) : ℚ :=
  let direct := lookupScore vibeScores targetMood
  let comps := (RecV2.COMPLEMENTARY_VIBES targetMood).map (lookupScore vibeScores)
  let scaledMean := if comps = [] then 0 else (4/5) * (comps.sum / comps.length)
  if 0 < direct then direct
  else if 0 < scaledMean then scaledMean
  else 3/10

/-- Amended specification of the `calculateScore` amenity component: each
required amenity contributes its stored confidence or `0` when absent; a
zero mean is replaced wholesale by `0.4`; no requirements give score `1`. -/
def amenityScoreSpecAmended (amenityScores : List (String × ℚ))
    (requirements : List String) : ℚ :=
  if requirements = [] then 1
  else
    let scores := requirements.map (lookupScore amenityScores)
    if scores.sum = 0 then 2/5 else scores.sum / requirements.length

/-! ## Helper lemmas -/

theorem jsGt_iff (v : JsVal) (t : ℚ) :
    jsGt v t = true ↔ ∃ q, v = JsVal.num q ∧ t < q := by
  cases v with
  | num q => simp [jsGt]
  | other => simp [jsGt]

theorem validNum_iff (v : JsVal) :
    validNum v = true ↔ ∃ q, v = JsVal.num q ∧ 0 ≤ q ∧ q ≤ 1 := by
  cases v with
  | num q => simp [validNum]
  | other => simp [validNum]

theorem assoc_isSome_iff {α : Type} (m : List (String × α)) (k : String) :
    (assoc m k).isSome = true ↔ ∃ v, (k, v) ∈ m := by
  induction m with
  | nil => simp [assoc]
  | cons p ps ih =>
    rcases p with ⟨a, b⟩
    by_cases h : a = k
    · subst h
      simp [assoc]
    · simp only [assoc, h, if_false, ih, List.mem_cons, Prod.mk.injEq]
      constructor
      · rintro ⟨v, hv⟩
        exact ⟨v, Or.inr hv⟩
      · rintro ⟨v, hv | hv⟩
        · exact absurd hv.1.symm h
        · exact ⟨v, hv⟩

/-! ## Claim C7 -/

/-- Claim C7: `saveAnalysisToDatabase` persists exactly the vibe entries
with confidence strictly greater than `0.4` and exactly the amenity entries
with confidence strictly greater than `0.5`; in particular the amenity map
`{wifi: 0.6, parking: 0.3}` persists only `wifi` and the vibe map
`{cozy: 0.5, modern: 0.3}` persists only `cozy`. -/
theorem persistence_thresholds_filter :
    (∀ (a : Analysis) (cat : String) (v : JsVal),
      ((cat, v) ∈ highConfidenceVibes a ↔
        (cat, v) ∈ a.vibe_scores ∧ ∃ q, v = JsVal.num q ∧ 2/5 < q) ∧
      ((cat, v) ∈ highConfidenceAmenities a ↔
        (cat, v) ∈ a.amenity_scores ∧ ∃ q, v = JsVal.num q ∧ 1/2 < q)) ∧
    saveAnalysisToDatabase true true 5 5 "c1"
        ⟨[("cozy", JsVal.num (1/2)), ("modern", JsVal.num (3/10))],
         [("wifi", JsVal.num (3/5)), ("parking", JsVal.num (3/10))]⟩ ⟨[], []⟩ =
      (true, ⟨[⟨"c1", ["cozy"], [JsVal.num (1/2)], 5⟩],
              [⟨"c1", ["wifi"], [JsVal.num (3/5)], 5⟩]⟩) := by
  constructor
  · intro a cat v
    constructor
    · simp [highConfidenceVibes, List.mem_filter, jsGt_iff]
    · simp [highConfidenceAmenities, List.mem_filter, jsGt_iff]
  · have h1 : highConfidenceVibes
        ⟨[("cozy", JsVal.num (1/2)), ("modern", JsVal.num (3/10))],
         [("wifi", JsVal.num (3/5)), ("parking", JsVal.num (3/10))]⟩ =
        [("cozy", JsVal.num (1/2))] := by
      norm_num [highConfidenceVibes, List.filter_cons, jsGt]
    have h2 : highConfidenceAmenities
        ⟨[("cozy", JsVal.num (1/2)), ("modern", JsVal.num (3/10))],
         [("wifi", JsVal.num (3/5)), ("parking", JsVal.num (3/10))]⟩ =
        [("wifi", JsVal.num (3/5))] := by
      norm_num [highConfidenceAmenities, List.filter_cons, jsGt]
    simp only [saveAnalysisToDatabase, h1, h2]
    norm_num [upsertVibe, upsertAmenity]

/-- Witness for C7 at a concrete input. -/
theorem persistence_thresholds_filter_witness :
    ("wifi", JsVal.num (3/5)) ∈ highConfidenceAmenities
      ⟨[], [("wifi", JsVal.num (3/5)), ("parking", JsVal.num (3/10))]⟩ :=
  ((persistence_thresholds_filter.1
      ⟨[], [("wifi", JsVal.num (3/5)), ("parking", JsVal.num (3/10))]⟩
      "wifi" (JsVal.num (3/5))).2).mpr
    ⟨by simp, 3/5, rfl, by norm_num⟩

/-! ## Claim C9 -/

/-- Claim C9: a `location_cache` row older than the 24-hour TTL reads as
`null` through `getLocationCache`, and the read deletes the stale row
(leaving every other row in place). -/
theorem stale_location_cache_absent_and_evicted :
    ∀ (now : ℤ) (rows : List LocationCacheRow) (loc : String)
      (price : Option String) (radius : ℕ) (r : LocationCacheRow),
      rows.find? (fun x => x.search_location == locationCacheKey loc price radius) = some r →
      LOCATION_CACHE_DURATION < now - r.last_updated →
      (getLocationCache now rows loc price radius).1 = none ∧
      (∀ x ∈ (getLocationCache now rows loc price radius).2,
        x.search_location ≠ locationCacheKey loc price radius) ∧
      (∀ x ∈ (getLocationCache now rows loc price radius).2, x ∈ rows) ∧
      (∀ x ∈ rows, x.search_location ≠ locationCacheKey loc price radius →
        x ∈ (getLocationCache now rows loc price radius).2) := by
  intro now rows loc price radius r hfind hstale
  have hget : getLocationCache now rows loc price radius =
      (none, invalidateLocationCache rows (locationCacheKey loc price radius)) := by
    simp only [getLocationCache, hfind]
    rw [if_pos hstale]
  refine ⟨by rw [hget], ?_, ?_, ?_⟩
  · intro x hx
    rw [hget] at hx
    simp only [invalidateLocationCache, List.mem_filter, Bool.not_eq_true', beq_eq_false_iff_ne,
      ne_eq] at hx
    exact hx.2
  · intro x hx
    rw [hget] at hx
    simp only [invalidateLocationCache, List.mem_filter] at hx
    exact hx.1
  · intro x hx hne
    rw [hget]
    simp only [invalidateLocationCache, List.mem_filter, Bool.not_eq_true', beq_eq_false_iff_ne,
      ne_eq]
    exact ⟨hx, hne⟩

/-- Witness for C9: a concrete stale row is read as absent and evicted. -/
theorem stale_location_cache_absent_and_evicted_witness :
    (getLocationCache 86400001 [⟨"seattle:any:5000", ["id1"], 0⟩] "seattle" none 5000).1 =
      none ∧
    (∀ x ∈ (getLocationCache 86400001 [⟨"seattle:any:5000", ["id1"], 0⟩] "seattle" none 5000).2,
      x.search_location ≠ locationCacheKey "seattle" none 5000) :=
  ⟨(stale_location_cache_absent_and_evicted 86400001 [⟨"seattle:any:5000", ["id1"], 0⟩]
      "seattle" none 5000 ⟨"seattle:any:5000", ["id1"], 0⟩ (by decide) (by decide)).1,
   (stale_location_cache_absent_and_evicted 86400001 [⟨"seattle:any:5000", ["id1"], 0⟩]
      "seattle" none 5000 ⟨"seattle:any:5000", ["id1"], 0⟩ (by decide) (by decide)).2.1⟩

/-! ## Claim C10 -/

/-- Claim C10: a valid analysis whose vibe confidences are all at most
`0.4` and whose amenity confidences are all at most `0.5` is persisted
without any database write: `saveAnalysisToDatabase` succeeds, leaves the
state untouched, and a cafe with no previous score rows still has
`hasRecentAnalysis = false` afterwards. -/
theorem all_low_confidence_analysis_no_write :
    ∀ (vibeOk amenityOk : Bool) (t1 t2 : ℤ) (id : String) (a : Analysis)
      (s : DbState) (now : ℤ),
      (∀ p ∈ a.vibe_scores, ∃ q, p.2 = JsVal.num q ∧ q ≤ 2/5) →
      (∀ p ∈ a.amenity_scores, ∃ q, p.2 = JsVal.num q ∧ q ≤ 1/2) →
      saveAnalysisToDatabase vibeOk amenityOk t1 t2 id a s = (true, s) ∧
      ((∀ x ∈ s.cafe_vibes, x.cafe_id ≠ id) →
        hasRecentAnalysis now
          (saveAnalysisToDatabase vibeOk amenityOk t1 t2 id a s).2 id = false) := by
  intro vibeOk amenityOk t1 t2 id a s now hv ha
  have hv0 : highConfidenceVibes a = [] := by
    unfold highConfidenceVibes
    rw [List.filter_eq_nil_iff]
    intro p hp
    obtain ⟨q, hq, hle⟩ := hv p hp
    rw [hq]
    simp [jsGt]
    linarith
  have ha0 : highConfidenceAmenities a = [] := by
    unfold highConfidenceAmenities
    rw [List.filter_eq_nil_iff]
    intro p hp
    obtain ⟨q, hq, hle⟩ := ha p hp
    rw [hq]
    simp [jsGt]
    linarith
  have hsave : saveAnalysisToDatabase vibeOk amenityOk t1 t2 id a s = (true, s) := by
    simp [saveAnalysisToDatabase, hv0, ha0]
  refine ⟨hsave, ?_⟩
  intro hnone
  rw [hsave]
  have hfind : s.cafe_vibes.find? (fun r => r.cafe_id == id) = none := by
    rw [List.find?_eq_none]
    intro x hx
    simpa using hnone x hx
  simp [hasRecentAnalysis, hfind]

/-- Witness for C10 at a concrete all-low-confidence analysis. -/
theorem all_low_confidence_analysis_no_write_witness :
    saveAnalysisToDatabase true true 3 4 "c1"
        ⟨[("cozy", JsVal.num (1/5))], [("wifi", JsVal.num (1/2))]⟩ ⟨[], []⟩ =
      (true, ⟨[], []⟩) ∧
    hasRecentAnalysis 0
      (saveAnalysisToDatabase true true 3 4 "c1"
        ⟨[("cozy", JsVal.num (1/5))], [("wifi", JsVal.num (1/2))]⟩ ⟨[], []⟩).2 "c1" = false :=
  ⟨(all_low_confidence_analysis_no_write true true 3 4 "c1"
      ⟨[("cozy", JsVal.num (1/5))], [("wifi", JsVal.num (1/2))]⟩ ⟨[], []⟩ 0
      (by intro p hp; rw [List.mem_singleton] at hp; subst hp
          exact ⟨1/5, rfl, by norm_num⟩)
      (by intro p hp; rw [List.mem_singleton] at hp; subst hp
          exact ⟨1/2, rfl, by norm_num⟩)).1,
   (all_low_confidence_analysis_no_write true true 3 4 "c1"
      ⟨[("cozy", JsVal.num (1/5))], [("wifi", JsVal.num (1/2))]⟩ ⟨[], []⟩ 0
      (by intro p hp; rw [List.mem_singleton] at hp; subst hp
          exact ⟨1/5, rfl, by norm_num⟩)
      (by intro p hp; rw [List.mem_singleton] at hp; subst hp
          exact ⟨1/2, rfl, by norm_num⟩)).2
    (by intro x hx; cases hx)⟩

/-! ## Claim C8 -/

/-- Claim C8: with a provider that answers 429 on every call, a cafe with
reviews and at least 50 characters of review text gets exactly
`RETRY_ATTEMPTS = 3` fetch attempts with strictly increasing sleeps
(`1000 ms`, then `2000 ms`) in between, after which `analyzeReviews`
returns `null`: the database is untouched, nothing is cached, and the call
returns normally instead of raising. -/
theorem rate_limited_three_attempts_then_skip :
    ∀ (vibeOk amenityOk : Bool) (t1 t2 : ℤ) (cafe : Cafe) (s : DbState),
      cafe.reviews.length ≠ 0 →
      50 ≤ totalReviewText cafe →
      analyzeReviews none (fun _ => ApiResult.rateLimited) vibeOk amenityOk t1 t2 cafe s =
        ⟨RETRY_ATTEMPTS, [RETRY_DELAY * 1, RETRY_DELAY * 2], s, false, none⟩ ∧
      List.Chain' (· < ·) [RETRY_DELAY * 1, RETRY_DELAY * 2] := by
  intro vibeOk amenityOk t1 t2 cafe s hrev htext
  constructor
  · rw [analyzeReviews, if_neg hrev]
    rw [if_neg (by omega)]
    rfl
  · simp [RETRY_DELAY]

/-- Witness for C8: a concrete cafe with a 50-character review. -/
theorem rate_limited_three_attempts_then_skip_witness :
    analyzeReviews none (fun _ => ApiResult.rateLimited) true true 0 0
        ⟨"c1", "n", [⟨some (String.mk (List.replicate 50 'a'))⟩]⟩ ⟨[], []⟩ =
      ⟨RETRY_ATTEMPTS, [RETRY_DELAY * 1, RETRY_DELAY * 2], ⟨[], []⟩, false, none⟩ :=
  (rate_limited_three_attempts_then_skip true true 0 0
      ⟨"c1", "n", [⟨some (String.mk (List.replicate 50 'a'))⟩]⟩ ⟨[], []⟩
      (by decide) (by decide)).1

/-! ## Claim C6 -/

/-- Claim C6: `isValidAnalysis` accepts exactly the well-formed payloads
that contain every one of the seven required vibe categories and the seven
required amenity categories with every value a number in `[0, 1]`; a
malformed payload (`none`) is rejected; and a rejected response makes
`analyzeReviews` return `null` on its first attempt with the database
untouched — no partial category set is persisted. -/
theorem isValidAnalysis_complete_iff_and_reject_no_persist :
    (∀ a : Analysis,
      isValidAnalysis (some a) = true ↔
        ((∀ cat ∈ requiredVibeCategories, ∃ v, (cat, v) ∈ a.vibe_scores) ∧
         (∀ am ∈ requiredAmenities, ∃ v, (am, v) ∈ a.amenity_scores) ∧
         (∀ p ∈ a.vibe_scores, ∃ q, p.2 = JsVal.num q ∧ 0 ≤ q ∧ q ≤ 1) ∧
         (∀ p ∈ a.amenity_scores, ∃ q, p.2 = JsVal.num q ∧ 0 ≤ q ∧ q ≤ 1))) ∧
    isValidAnalysis none = false ∧
    (∀ (p : Option Analysis) (vibeOk amenityOk : Bool) (t1 t2 : ℤ)
       (cafe : Cafe) (s : DbState),
      cafe.reviews.length ≠ 0 →
      50 ≤ totalReviewText cafe →
      isValidAnalysis p = false →
      analyzeReviews none (fun _ => ApiResult.okContent p) vibeOk amenityOk t1 t2 cafe s =
        ⟨1, [], s, false, none⟩) := by
  refine ⟨?_, rfl, ?_⟩
  · intro a
    simp only [isValidAnalysis, Bool.and_eq_true, List.all_eq_true]
    constructor
    · rintro ⟨⟨⟨hvc, hac⟩, hvn⟩, han⟩
      refine ⟨?_, ?_, ?_, ?_⟩
      · intro cat hcat
        obtain ⟨v, hv⟩ := (assoc_isSome_iff a.vibe_scores cat).mp (hvc cat hcat)
        exact ⟨v, hv⟩
      · intro am ham
        obtain ⟨v, hv⟩ := (assoc_isSome_iff a.amenity_scores am).mp (hac am ham)
        exact ⟨v, hv⟩
      · intro q hq
        exact (validNum_iff q.2).mp (hvn q hq)
      · intro q hq
        exact (validNum_iff q.2).mp (han q hq)
    · rintro ⟨hvc, hac, hvn, han⟩
      refine ⟨⟨⟨?_, ?_⟩, ?_⟩, ?_⟩
      · intro cat hcat
        exact (assoc_isSome_iff a.vibe_scores cat).mpr (hvc cat hcat)
      · intro am ham
        exact (assoc_isSome_iff a.amenity_scores am).mpr (hac am ham)
      · intro q hq
        exact (validNum_iff q.2).mpr (hvn q hq)
      · intro q hq
        exact (validNum_iff q.2).mpr (han q hq)
  · intro p vibeOk amenityOk t1 t2 cafe s hrev htext hinvalid
    rw [analyzeReviews, if_neg hrev, if_neg (by omega)]
    cases p with
    | none => rfl
    | some a =>
        show runAttempts _ _ _ _ _ _ _ 1 RETRY_ATTEMPTS = _
        rw [RETRY_ATTEMPTS]
        simp only [runAttempts, hinvalid]
        rfl

/-- Witness for C6: a payload missing every required amenity category is
rejected and analyzeReviews drops the cafe without touching the database. -/
theorem isValidAnalysis_reject_witness :
    analyzeReviews none
        (fun _ => ApiResult.okContent (some ⟨[("cozy", JsVal.other)], []⟩)) true true 0 0
        ⟨"c1", "n", [⟨some (String.mk (List.replicate 50 'a'))⟩]⟩ ⟨[], []⟩ =
      ⟨1, [], ⟨[], []⟩, false, none⟩ :=
  isValidAnalysis_complete_iff_and_reject_no_persist.2.2
    (some ⟨[("cozy", JsVal.other)], []⟩) true true 0 0
    ⟨"c1", "n", [⟨some (String.mk (List.replicate 50 'a'))⟩]⟩ ⟨[], []⟩
    (by decide) (by decide) (by decide)

/-! ## Claim C2 -/

/-- Counterexample to claim C2: for target mood `cozy` with complementary
confidences `quiet = 1`, `traditional = 0` (and no direct `cozy` score),
the maximum complementary confidence is `1`, so the claim requires a score
in `[0.7 · 1, 0.8 · 1]`; the code returns the *mean* scaled by `0.8`,
namely `0.4 < 0.7`. -/
theorem vibeScore_not_scaled_max_complementary :
    RecV2.totalVibeScore "cozy" [("quiet", 1), ("traditional", 0)] = 2/5 ∧
    lookupScore [("quiet", (1 : ℚ)), ("traditional", 0)] "cozy" = 0 ∧
    ((RecV2.COMPLEMENTARY_VIBES "cozy").map
      (lookupScore [("quiet", (1 : ℚ)), ("traditional", 0)])).foldr max 0 = 1 ∧
    (2/5 : ℚ) < 7/10 * 1 := by
  refine ⟨?_, ?_, ?_, by norm_num⟩
  · simp [RecV2.totalVibeScore, RecV2.COMPLEMENTARY_VIBES, lookupScore, assoc] <;> norm_num
  · simp [lookupScore, assoc]
  · simp [RecV2.COMPLEMENTARY_VIBES, lookupScore, assoc]

/-- Claim C2 as amended: the vibe component of `calculateScore` equals the
direct confidence when that is strictly positive; otherwise the *mean* of
the complementary confidences (missing ones reading as `0`) scaled by
`0.8`, when that is strictly positive; otherwise the neutral floor `0.3`. -/
theorem vibeScore_direct_else_scaled_mean_else_floor :
    ∀ (mood : String) (m : List (String × ℚ)),
      RecV2.totalVibeScore mood m = vibeScoreSpecAmended mood m := by
  intro mood m
  simp only [RecV2.totalVibeScore, vibeScoreSpecAmended]
  by_cases hc : (RecV2.COMPLEMENTARY_VIBES mood).map (lookupScore m) = []
  · rw [hc]
    simp
  · have h1 : 0 < ((RecV2.COMPLEMENTARY_VIBES mood).map (lookupScore m)).length :=
      List.length_pos.mpr hc
    rw [if_pos h1, if_neg hc]
    have harith : ((RecV2.COMPLEMENTARY_VIBES mood).map (lookupScore m)).sum * (4/5) /
        ((((RecV2.COMPLEMENTARY_VIBES mood).map (lookupScore m)).length : ℚ)) =
        (4/5) * (((RecV2.COMPLEMENTARY_VIBES mood).map (lookupScore m)).sum /
        ((((RecV2.COMPLEMENTARY_VIBES mood).map (lookupScore m)).length : ℚ))) := by
      ring
    rw [harith]

/-! ## Claim C3 -/

/-- Counterexample to claim C3: with stored amenity confidences
`{wifi: 0.9}` and requirements `[wifi, parking, pet_friendly]`, each
missing amenity contributes `0` (not a neutral `0.4`–`0.5`), so both
scorer variants return `0.3`, strictly below `(0.9 + 0.4 + 0.4)/3 = 17/30`,
the smallest value the claim allows. -/
theorem amenityScore_missing_amenity_counts_zero :
    RecV2.amenityScore [("wifi", 9/10)] ["wifi", "parking", "pet_friendly"] = 3/10 ∧
    Rec.calculateAmenityScore [("wifi", 9/10)] ["wifi", "parking", "pet_friendly"] = 3/10 ∧
    (3/10 : ℚ) < 17/30 := by
  refine ⟨?_, ?_, by norm_num⟩
  · simp [RecV2.amenityScore, lookupScore, assoc] <;> norm_num
  · simp [Rec.calculateAmenityScore, lookupScore, assoc] <;> norm_num

/-- Claim C3 as amended: a required amenity lacking a persisted record
contributes `0` to the arithmetic mean; only when the whole mean is `0`
does the `calculateScore` variant substitute `0.4` wholesale; and an empty
requirement list scores `1`. -/
theorem amenityScore_zero_default_mean :
    ∀ (m : List (String × ℚ)) (reqs : List String),
      RecV2.amenityScore m reqs = amenityScoreSpecAmended m reqs := by
  intro m reqs
  simp only [RecV2.amenityScore, amenityScoreSpecAmended]
  by_cases hr : reqs = []
  · subst hr
    simp
  · have hlen : 0 < (reqs.map (lookupScore m)).length := by
      simpa using List.length_pos.mpr hr
    rw [if_pos hlen, if_neg hr, List.length_map]
    have hq : ((reqs.length : ℚ)) ≠ 0 := by
      exact_mod_cast Nat.pos_iff_ne_zero.mp (List.length_pos.mpr hr)
    simp only [div_eq_zero_iff, hq, or_false]

/-! ## Sorting lemmas for claim C4 -/

theorem insertDesc_perm (c : RankedCafe) (l : List RankedCafe) :
    (insertDesc c l).Perm (c :: l) := by
  induction l with
  | nil => exact List.Perm.refl _
  | cons x xs ih =>
    simp only [insertDesc]
    by_cases h : c.score < x.score
    · rw [if_pos h]
      exact (ih.cons x).trans (List.Perm.swap c x xs)
    · rw [if_neg h]

theorem insertDesc_pairwise (c : RankedCafe) (l : List RankedCafe)
    (h : l.Pairwise (fun a b => b.score ≤ a.score)) :
    (insertDesc c l).Pairwise (fun a b => b.score ≤ a.score) := by
  induction l with
  | nil => simp [insertDesc]
  | cons x xs ih =>
    simp only [insertDesc]
    rcases List.pairwise_cons.mp h with ⟨hx, hxs⟩
    by_cases hcx : c.score < x.score
    · rw [if_pos hcx]
      refine List.pairwise_cons.mpr ⟨?_, ih hxs⟩
      intro y hy
      rcases List.mem_cons.mp ((insertDesc_perm c xs).mem_iff.mp hy) with rfl | hmem
      · exact le_of_lt hcx
      · exact hx y hmem
    · rw [if_neg hcx]
      refine List.pairwise_cons.mpr ⟨?_, h⟩
      intro y hy
      rcases List.mem_cons.mp hy with rfl | hmem
      · exact not_lt.mp hcx
      · exact le_trans (hx y hmem) (not_lt.mp hcx)

theorem sortByScoreDesc_perm (l : List RankedCafe) : (sortByScoreDesc l).Perm l := by
  induction l with
  | nil => exact List.Perm.refl _
  | cons x xs ih =>
    simp only [sortByScoreDesc]
    exact (insertDesc_perm x (sortByScoreDesc xs)).trans (ih.cons x)

theorem sortByScoreDesc_pairwise (l : List RankedCafe) :
    (sortByScoreDesc l).Pairwise (fun a b => b.score ≤ a.score) := by
  induction l with
  | nil => simp [sortByScoreDesc]
  | cons x xs ih =>
    simp only [sortByScoreDesc]
    exact insertDesc_pairwise x _ ih

theorem filter_insertDesc (q : ℚ) (c : RankedCafe) (l : List RankedCafe) :
    (insertDesc c l).filter (fun x => decide (x.score = q)) =
    ((c :: l).filter (fun x => decide (x.score = q))) := by
  induction l with
  | nil => rfl
  | cons x xs ih =>
    simp only [insertDesc]
    by_cases hcx : c.score < x.score
    · rw [if_pos hcx]
      by_cases hcq : c.score = q
      · have hxq : ¬ x.score = q := by
          rw [← hcq]
          exact ne_of_gt hcx
        simp [List.filter_cons, ih, hcq, hxq]
      · simp [List.filter_cons, ih, hcq]
    · rw [if_neg hcx]

theorem filter_sortByScoreDesc (q : ℚ) (l : List RankedCafe) :
    (sortByScoreDesc l).filter (fun x => decide (x.score = q)) =
    l.filter (fun x => decide (x.score = q)) := by
  induction l with
  | nil => rfl
  | cons x xs ih =>
    simp only [sortByScoreDesc]
    rw [filter_insertDesc]
    simp only [List.filter_cons, ih]

/-! ## Claim C4 -/

/-- Counterexample to claim C4: two cafes with equal combined score
(`57/100` each) but different distances, fed in far-first order, come out
far-first — ties are *not* broken by ascending distance. -/
theorem rankCafes_tie_not_broken_by_distance :
    Rec.rankCafes
        [⟨"far", 1000, none, [], [("wifi", 11/15)]⟩,
         ⟨"near", 0, none, [], [("wifi", 2/5)]⟩]
        ⟨"cozy", none, ["wifi"]⟩ =
      [⟨⟨"far", 1000, none, [], [("wifi", 11/15)]⟩, 57/100⟩,
       ⟨⟨"near", 0, none, [], [("wifi", 2/5)]⟩, 57/100⟩] ∧
    ((⟨"near", 0, none, [], [("wifi", 2/5)]⟩ : ScoredCafe)).distance <
      ((⟨"far", 1000, none, [], [("wifi", 11/15)]⟩ : ScoredCafe)).distance := by
  have hfar : Rec.calculateTotalScore ⟨"far", 1000, none, [], [("wifi", 11/15)]⟩
      ⟨"cozy", none, ["wifi"]⟩ = 57/100 := by
    simp [Rec.calculateTotalScore, Rec.calculateVibeScore, Rec.calculateAmenityScore,
      Rec.calculateDistanceScore, Rec.calculatePriceScore, Rec.VIBE_MAPPINGS, Rec.WEIGHTS,
      Rec.MAX_PREFERRED_DISTANCE, lookupScore, assoc,
      show toLowerCaseJs "cozy" = "cozy" from by decide] <;> norm_num
  have hnear : Rec.calculateTotalScore ⟨"near", 0, none, [], [("wifi", 2/5)]⟩
      ⟨"cozy", none, ["wifi"]⟩ = 57/100 := by
    simp [Rec.calculateTotalScore, Rec.calculateVibeScore, Rec.calculateAmenityScore,
      Rec.calculateDistanceScore, Rec.calculatePriceScore, Rec.VIBE_MAPPINGS, Rec.WEIGHTS,
      Rec.MAX_PREFERRED_DISTANCE, lookupScore, assoc,
      show toLowerCaseJs "cozy" = "cozy" from by decide] <;> norm_num
  constructor
  · simp [Rec.rankCafes, sortByScoreDesc, insertDesc, hfar, hnear]
  · show (0 : ℚ) < 1000
    norm_num

/-- Claim C4 as amended: `rankCafes` is the first five elements of the
stable descending sort of the scored candidates by `_score`: the output is
sorted by combined score descending, is a permutation of the scored input,
and candidates with equal scores keep their original input order (the
filtered sublist at each score value is unchanged); distance plays no role
in tie-breaking, and the result is a deterministic function of the
input. -/
theorem rankCafes_sorted_stable :
    ∀ (cafes : List ScoredCafe) (request : CafeRequest),
      Rec.rankCafes cafes request =
        (sortByScoreDesc (cafes.map
          (fun c => ⟨c, Rec.calculateTotalScore c request⟩))).take 5 ∧
      (sortByScoreDesc (cafes.map
        (fun c => ⟨c, Rec.calculateTotalScore c request⟩))).Pairwise
        (fun a b => b.score ≤ a.score) ∧
      (sortByScoreDesc (cafes.map
        (fun c => ⟨c, Rec.calculateTotalScore c request⟩))).Perm
        (cafes.map (fun c => ⟨c, Rec.calculateTotalScore c request⟩)) ∧
      (∀ q : ℚ,
        (sortByScoreDesc (cafes.map
          (fun c => ⟨c, Rec.calculateTotalScore c request⟩))).filter
            (fun x => decide (x.score = q)) =
        (cafes.map (fun c => ⟨c, Rec.calculateTotalScore c request⟩)).filter
          (fun x => decide (x.score = q))) :=
  fun _ _ =>
    ⟨rfl, sortByScoreDesc_pairwise _, sortByScoreDesc_perm _,
     fun q => filter_sortByScoreDesc q _⟩

/-! ## Bounds lemmas for claim C5 -/

theorem lookupScore_bounds (m : List (String × ℚ)) (k : String)
    (h : ∀ p ∈ m, 0 ≤ p.2 ∧ p.2 ≤ 1) :
    0 ≤ lookupScore m k ∧ lookupScore m k ≤ 1 := by
  induction m with
  | nil => norm_num [lookupScore, assoc]
  | cons p ps ih =>
    simp only [lookupScore, assoc]
    by_cases hp : p.1 = k
    · rw [if_pos hp]
      simpa using h p (List.mem_cons_self p ps)
    · rw [if_neg hp]
      exact ih (fun x hx => h x (List.mem_cons_of_mem p hx))

theorem sum_div_length_bounds (l : List ℚ)
    (h0 : ∀ x ∈ l, 0 ≤ x) (h1 : ∀ x ∈ l, x ≤ 1) :
    0 ≤ l.sum / l.length ∧ l.sum / l.length ≤ 1 := by
  rcases eq_or_ne l [] with rfl | hne
  · simp
  · have hpos : 0 < ((l.length : ℚ)) := by
      exact_mod_cast List.length_pos.mpr hne
    have hsum0 : 0 ≤ l.sum := List.sum_nonneg h0
    have hsum1 : l.sum ≤ ((l.length : ℚ)) := by
      have := List.sum_le_card_nsmul l 1 h1
      simpa [nsmul_eq_mul] using this
    exact ⟨div_nonneg hsum0 (le_of_lt hpos), (div_le_one hpos).mpr hsum1⟩

theorem calculateVibeScore_bounds (m : List (String × ℚ)) (mood : String)
    (h : ∀ p ∈ m, 0 ≤ p.2 ∧ p.2 ≤ 1) :
    0 ≤ Rec.calculateVibeScore m mood ∧ Rec.calculateVibeScore m mood ≤ 1 := by
  simp only [Rec.calculateVibeScore]
  by_cases hd : (Rec.VIBE_MAPPINGS (toLowerCaseJs mood)).length = 0
  · rw [if_pos hd]
    norm_num
  · rw [if_neg hd]
    have hlen : (((Rec.VIBE_MAPPINGS (toLowerCaseJs mood)).length : ℚ)) =
        ((((Rec.VIBE_MAPPINGS (toLowerCaseJs mood)).map (lookupScore m)).length : ℚ)) := by
      rw [List.length_map]
    rw [hlen]
    apply sum_div_length_bounds
    · intro x hx
      obtain ⟨k, _, rfl⟩ := List.mem_map.mp hx
      exact (lookupScore_bounds m k h).1
    · intro x hx
      obtain ⟨k, _, rfl⟩ := List.mem_map.mp hx
      exact (lookupScore_bounds m k h).2

theorem calculateAmenityScore_bounds (m : List (String × ℚ)) (reqs : List String)
    (h : ∀ p ∈ m, 0 ≤ p.2 ∧ p.2 ≤ 1) :
    0 ≤ Rec.calculateAmenityScore m reqs ∧ Rec.calculateAmenityScore m reqs ≤ 1 := by
  simp only [Rec.calculateAmenityScore]
  by_cases hd : reqs.length = 0
  · rw [if_pos hd]
    norm_num
  · rw [if_neg hd]
    have hlen : ((reqs.length : ℚ)) = (((reqs.map (lookupScore m)).length : ℚ)) := by
      rw [List.length_map]
    rw [hlen]
    apply sum_div_length_bounds
    · intro x hx
      obtain ⟨k, _, rfl⟩ := List.mem_map.mp hx
      exact (lookupScore_bounds m k h).1
    · intro x hx
      obtain ⟨k, _, rfl⟩ := List.mem_map.mp hx
      exact (lookupScore_bounds m k h).2

theorem calculateDistanceScore_bounds (d : ℚ) (hd : 0 ≤ d) :
    0 ≤ Rec.calculateDistanceScore d ∧ Rec.calculateDistanceScore d ≤ 1 := by
  refine ⟨le_max_left 0 _, ?_⟩
  refine max_le (by norm_num) ?_
  have h2 : 0 ≤ d / Rec.MAX_PREFERRED_DISTANCE :=
    div_nonneg hd (by norm_num [Rec.MAX_PREFERRED_DISTANCE])
  linarith

theorem calculatePriceScore_bounds (cp tp : Option String) :
    0 ≤ Rec.calculatePriceScore cp tp ∧ Rec.calculatePriceScore cp tp ≤ 1 := by
  cases cp <;> cases tp <;> simp only [Rec.calculatePriceScore] <;>
    (try split_ifs) <;> norm_num

/-! ## Claim C5 -/

/-- Claim C5: whenever every stored confidence lies in `[0, 1]` and the
distance is nonnegative, the combined weighted score lies in `[0, 1]`; and
both configured weight vectors (`0.4/0.3/0.2/0.1` in recommendations.ts and
`0.35/0.25/0.25/0.15` in the analysis.ts variant) sum to exactly `1`. -/
theorem combinedScore_in_unit_interval_and_weights_sum_one :
    ∀ (cafe : ScoredCafe) (request : CafeRequest),
      (∀ p ∈ cafe.vibe_scores, 0 ≤ p.2 ∧ p.2 ≤ 1) →
      (∀ p ∈ cafe.amenity_scores, 0 ≤ p.2 ∧ p.2 ≤ 1) →
      0 ≤ cafe.distance →
      (0 ≤ Rec.calculateTotalScore cafe request ∧
        Rec.calculateTotalScore cafe request ≤ 1) ∧
      Rec.WEIGHTS.vibe + Rec.WEIGHTS.amenity + Rec.WEIGHTS.distance +
        Rec.WEIGHTS.price = 1 ∧
      RecV2.WEIGHTS.vibe + RecV2.WEIGHTS.amenity + RecV2.WEIGHTS.distance +
        RecV2.WEIGHTS.price = 1 := by
  intro cafe request hv ha hd
  obtain ⟨v0, v1⟩ := calculateVibeScore_bounds cafe.vibe_scores request.mood hv
  obtain ⟨a0, a1⟩ := calculateAmenityScore_bounds cafe.amenity_scores request.requirements ha
  obtain ⟨d0, d1⟩ := calculateDistanceScore_bounds cafe.distance hd
  obtain ⟨p0, p1⟩ := calculatePriceScore_bounds cafe.price_level request.priceRange
  refine ⟨⟨?_, ?_⟩, by norm_num [Rec.WEIGHTS], by norm_num [RecV2.WEIGHTS]⟩
  · simp only [Rec.calculateTotalScore, Rec.WEIGHTS]
    linarith
  · simp only [Rec.calculateTotalScore, Rec.WEIGHTS]
    linarith

/-- Witness for C5 at a concrete cafe. -/
theorem combinedScore_in_unit_interval_witness :
    (0 ≤ Rec.calculateTotalScore ⟨"near", 0, none, [], [("wifi", 2/5)]⟩
        ⟨"cozy", none, ["wifi"]⟩ ∧
      Rec.calculateTotalScore ⟨"near", 0, none, [], [("wifi", 2/5)]⟩
        ⟨"cozy", none, ["wifi"]⟩ ≤ 1) ∧
    Rec.WEIGHTS.vibe + Rec.WEIGHTS.amenity + Rec.WEIGHTS.distance +
      Rec.WEIGHTS.price = 1 ∧
    RecV2.WEIGHTS.vibe + RecV2.WEIGHTS.amenity + RecV2.WEIGHTS.distance +
      RecV2.WEIGHTS.price = 1 :=
  combinedScore_in_unit_interval_and_weights_sum_one
    ⟨"near", 0, none, [], [("wifi", 2/5)]⟩ ⟨"cozy", none, ["wifi"]⟩
    (by intro p hp; exact absurd hp (List.not_mem_nil p))
    (by intro p hp; rw [List.mem_singleton] at hp; subst hp; norm_num)
    le_rfl

/-! ## Claim C1 -/

/-- Counterexample to claim C1: starting from stored vibes `{modern}` and
amenities `{parking}`, persisting a new analysis (`cozy` vibe, `wifi`
amenity) through `saveAnalysisToDatabase` with the amenity upsert failing
leaves the *new* vibe set `["cozy"]` next to the *old* amenity set
`["parking"]` — a mix of old and new categories, which the claim rules
out.  `parking` is not in the new analysis and `cozy` was not stored
before. -/
theorem saveAnalysis_partway_failure_mixes_sets :
    saveAnalysisToDatabase true false 100 100 "c1"
        ⟨[("cozy", JsVal.num (9/10))], [("wifi", JsVal.num (9/10))]⟩
        ⟨[⟨"c1", ["modern"], [JsVal.num (4/5)], 0⟩],
         [⟨"c1", ["parking"], [JsVal.num (9/10)], 0⟩]⟩ =
      (false, ⟨[⟨"c1", ["cozy"], [JsVal.num (9/10)], 100⟩],
               [⟨"c1", ["parking"], [JsVal.num (9/10)], 0⟩]⟩) ∧
    "parking" ∉ (Analysis.amenity_scores
      ⟨[("cozy", JsVal.num (9/10))], [("wifi", JsVal.num (9/10))]⟩).map Prod.fst ∧
    "cozy" ∉ (["modern"] : List String) := by
  refine ⟨?_, by simp, by simp⟩
  have h1 : highConfidenceVibes
      ⟨[("cozy", JsVal.num (9/10))], [("wifi", JsVal.num (9/10))]⟩ =
      [("cozy", JsVal.num (9/10))] := by
    norm_num [highConfidenceVibes, List.filter_cons, jsGt]
  have h2 : highConfidenceAmenities
      ⟨[("cozy", JsVal.num (9/10))], [("wifi", JsVal.num (9/10))]⟩ =
      [("wifi", JsVal.num (9/10))] := by
    norm_num [highConfidenceAmenities, List.filter_cons, jsGt]
  simp only [saveAnalysisToDatabase, h1, h2]
  norm_num [upsertVibe, upsertAmenity]

/-- Claim C1 as amended: the RPC path `update_cafe_analysis` (used by
`CacheService.cacheAnalysisResults`) does replace both score sets
atomically, stamping every inserted row with the single `p_timestamp` and
leaving the rows of other cafes untouched.  The path used by `analyzeReviews`,
`saveAnalysisToDatabase`, instead performs two independent upserts with two
separately taken timestamps: a failure of the amenity upsert preserves the
already-replaced vibe row while the amenity table keeps its old contents
(the mix exhibited by the counterexample). -/
theorem recordAnalysis_replacement_semantics :
    (∀ (p_cafe_id : String) (p_timestamp : ℤ)
       (p_vibes p_amenities : List (String × ℚ)) (s : SqlState),
      (∀ r ∈ (update_cafe_analysis p_cafe_id p_timestamp p_vibes p_amenities s).cafe_vibes,
        r.cafe_id = p_cafe_id →
          r.last_analyzed = p_timestamp ∧ (r.vibe_category, r.confidence_score) ∈ p_vibes) ∧
      (∀ r ∈ (update_cafe_analysis p_cafe_id p_timestamp p_vibes p_amenities s).cafe_amenities,
        r.cafe_id = p_cafe_id →
          r.last_analyzed = p_timestamp ∧ (r.amenity, r.confidence_score) ∈ p_amenities) ∧
      (∀ cv ∈ p_vibes, (⟨p_cafe_id, cv.1, cv.2, p_timestamp⟩ : VibeScoreRow) ∈
        (update_cafe_analysis p_cafe_id p_timestamp p_vibes p_amenities s).cafe_vibes) ∧
      (∀ ca ∈ p_amenities, (⟨p_cafe_id, ca.1, ca.2, p_timestamp⟩ : AmenityScoreRow) ∈
        (update_cafe_analysis p_cafe_id p_timestamp p_vibes p_amenities s).cafe_amenities) ∧
      (∀ r ∈ s.cafe_vibes, r.cafe_id ≠ p_cafe_id →
        r ∈ (update_cafe_analysis p_cafe_id p_timestamp p_vibes p_amenities s).cafe_vibes) ∧
      (∀ r ∈ s.cafe_amenities, r.cafe_id ≠ p_cafe_id →
        r ∈ (update_cafe_analysis p_cafe_id p_timestamp p_vibes p_amenities s).cafe_amenities)) ∧
    (∀ (t1 t2 : ℤ) (id : String) (a : Analysis) (st : DbState),
      (saveAnalysisToDatabase true false t1 t2 id a st).2.cafe_vibes =
        (saveAnalysisToDatabase true true t1 t2 id a st).2.cafe_vibes ∧
      (saveAnalysisToDatabase true false t1 t2 id a st).2.cafe_amenities =
        st.cafe_amenities) := by
  constructor
  · intro p_cafe_id p_timestamp p_vibes p_amenities s
    refine ⟨?_, ?_, ?_, ?_, ?_, ?_⟩
    · intro r hr hid
      rcases List.mem_append.mp hr with h | h
      · have := (List.mem_filter.mp h).2
        simp only [Bool.not_eq_true', beq_eq_false_iff_ne, ne_eq] at this
        exact absurd hid this
      · obtain ⟨p, hp, rfl⟩ := List.mem_map.mp h
        exact ⟨rfl, by simpa using hp⟩
    · intro r hr hid
      rcases List.mem_append.mp hr with h | h
      · have := (List.mem_filter.mp h).2
        simp only [Bool.not_eq_true', beq_eq_false_iff_ne, ne_eq] at this
        exact absurd hid this
      · obtain ⟨p, hp, rfl⟩ := List.mem_map.mp h
        exact ⟨rfl, by simpa using hp⟩
    · intro cv hcv
      exact List.mem_append.mpr (Or.inr (List.mem_map.mpr ⟨cv, hcv, rfl⟩))
    · intro ca hca
      exact List.mem_append.mpr (Or.inr (List.mem_map.mpr ⟨ca, hca, rfl⟩))
    · intro r hr hne
      exact List.mem_append.mpr (Or.inl (List.mem_filter.mpr ⟨hr, by simp [hne]⟩))
    · intro r hr hne
      exact List.mem_append.mpr (Or.inl (List.mem_filter.mpr ⟨hr, by simp [hne]⟩))
  · intro t1 t2 id a st
    by_cases hv : 0 < (highConfidenceVibes a).length <;>
      by_cases hA : 0 < (highConfidenceAmenities a).length <;>
        constructor <;> simp [saveAnalysisToDatabase, hv, hA]

/-- Witness for C1: the RPC path stamps an inserted row with the single
timestamp, and a failing amenity upsert leaves the amenity table at its old
(here empty) contents. -/
theorem recordAnalysis_replacement_semantics_witness :
    (⟨"c1", "cozy", 9/10, 7⟩ : VibeScoreRow) ∈
      (update_cafe_analysis "c1" 7 [("cozy", 9/10)] [] ⟨[], []⟩).cafe_vibes ∧
    (saveAnalysisToDatabase true false 1 2 "c1"
        ⟨[], [("wifi", JsVal.num (9/10))]⟩ ⟨[], []⟩).2.cafe_amenities = [] :=
  ⟨((recordAnalysis_replacement_semantics.1 "c1" 7 [("cozy", 9/10)] [] ⟨[], []⟩).2.2.1)
      ("cozy", 9/10) (List.mem_singleton.mpr rfl),
   (recordAnalysis_replacement_semantics.2 1 2 "c1"
      ⟨[], [("wifi", JsVal.num (9/10))]⟩ ⟨[], []⟩).2⟩

end QuickCafe
